import Mathlib

/-
Verification development for the sidecar JSON-RPC transport
(src/src-tauri/src: ipc.rs, sidecar.rs, commands.rs).

The embedding works at the granularity of one newline-delimited JSON
document per line: textual parsing is abstracted to a `Json` value (a
line that is not valid JSON corresponds to no `Json` value and is
skipped by the reader, which no claim depends on).  Machine integers
(the `u64` request counter, `i64` error codes) are modelled as `Nat`
and `Int` with explicit reduction modulo 2 ^ 64 where overflow matters.
-/

set_option maxHeartbeats 1000000
set_option maxRecDepth 8192

namespace FT

/-- JSON values as parsed from one line of worker stdout.  Numbers are
modelled as integers: the protocol fields read by the code (`id`, error
`code`) are integral, and no claim involves floating point. -/
inductive Json where
  | null : Json
  | bool : Bool → Json
  | num : Int → Json
  | str : String → Json
  | arr : List Json → Json
  | obj : List (String × Json) → Json


/-- Field lookup in a JSON object; `none` on non-objects and absent keys
(serde's derived deserializers only ever read named fields). -/
def Json.get? : Json → String → Option Json
  | .obj fields, k => fields.lookup k
  | _, _ => none

/-- serde required-string field semantics: the value must be a JSON
string, anything else fails the whole deserialization. -/
def strOfJson : Json → Option String
  | .str s => some s
  | _ => none

/-- serde `Option<u64>` field semantics: an absent or `null` field is
`some none`; an integral number in u64 range is `some (some n)`; any
other value makes the whole deserialization fail (`none`). -/
def optU64 : Option Json → Option (Option Nat)
  | none => some none
  | some .null => some none
  | some (.num n) => if 0 ≤ n ∧ n < (2 : Int) ^ 64 then some (some n.toNat) else none
  | some _ => none

/-- serde `Option<Value>` field semantics: absent or `null` is
`some none`; any other JSON value is accepted verbatim. -/
def optValue : Option Json → Option (Option Json)
  | none => some none
  | some .null => some none
  | some v => some (some v)

/-- serde required `i64` field semantics (used for the error `code`). -/
def i64OfJson : Json → Option Int
  | .num n => if -((2 : Int) ^ 63) ≤ n ∧ n < (2 : Int) ^ 63 then some n else none
  | _ => none

/-- `JsonRpcError` of ipc.rs: code (i64), message (String),
data (`Option<Value>`). -/
structure JsonRpcError where
  code : Int
  message : String
  data : Option Json


/-- Derived `Deserialize` for `JsonRpcError`: requires an object with a
numeric `code` and a string `message`; `data` is optional; unknown
fields are ignored. -/
def JsonRpcError.parse (j : Json) : Option JsonRpcError :=
  match j with
  | .obj _ =>
    ((j.get? "code").bind i64OfJson).bind fun c =>
    ((j.get? "message").bind strOfJson).bind fun m =>
    (optValue (j.get? "data")).map fun d => ⟨c, m, d⟩
  | _ => none

/-- The `Display` implementation for `JsonRpcError` in ipc.rs. -/
def JsonRpcError.toMessage (e : JsonRpcError) : String :=
  "RPC Error " ++ toString e.code ++ ": " ++ e.message

/-- serde `Option<JsonRpcError>` field semantics. -/
def optError : Option Json → Option (Option JsonRpcError)
  | none => some none
  | some .null => some none
  | some v => (JsonRpcError.parse v).map some

/-- `JsonRpcResponse` of ipc.rs: required `jsonrpc` string, optional
`id` (u64), optional `result`, optional `error`. -/
structure JsonRpcResponse where
  jsonrpc : String
  id : Option Nat
  result : Option Json
  error : Option JsonRpcError


/-- Derived `Deserialize` for `JsonRpcResponse`.  The `jsonrpc` field is
not an `Option` in the Rust struct, so it must be present and be a
string; `id`, `result` and `error` are optional; unknown fields are
ignored; non-objects fail. -/
def JsonRpcResponse.parse (j : Json) : Option JsonRpcResponse :=
  match j with
  | .obj _ =>
    ((j.get? "jsonrpc").bind strOfJson).bind fun v =>
    (optU64 (j.get? "id")).bind fun i =>
    (optValue (j.get? "result")).bind fun r =>
    (optError (j.get? "error")).map fun e => ⟨v, i, r, e⟩
  | _ => none

/-- `JsonRpcNotification` of ipc.rs: required `method` string, optional
`params`. -/
structure JsonRpcNotification where
  method : String
  params : Option Json


/-- Derived `Deserialize` for `JsonRpcNotification`: requires an object
with a string `method`; `params` optional; unknown fields (including a
present `id`) are ignored. -/
def JsonRpcNotification.parse (j : Json) : Option JsonRpcNotification :=
  match j with
  | .obj _ =>
    ((j.get? "method").bind strOfJson).bind fun m =>
    (optValue (j.get? "params")).map fun p => ⟨m, p⟩
  | _ => none

/-! ## Request side (ipc.rs) -/

/-- The global `REQUEST_ID: AtomicU64` counter of ipc.rs, with
`fetch_add(1, Relaxed)`: returns the previous value and stores the
incremented value, wrapping modulo 2 ^ 64.  The counter is initialised
to 1.  Atomicity makes concurrent increments linearize, so the issued
sequence is the sequential one modelled here. -/
def next_id (c : Nat) : Nat × Nat :=
  (c % 2 ^ 64, (c + 1) % 2 ^ 64)

/-- `JsonRpcRequest` of ipc.rs. -/
structure JsonRpcRequest where
  jsonrpc : String
  method : String
  params : Option Json
  id : Nat

/-- `JsonRpcRequest::new`: fills in protocol version "2.0" and the next
identifier from the global counter.  The counter value is threaded
explicitly (state `c` before, returned state after). -/
def JsonRpcRequest.new (method : String) (params : Option Json) (c : Nat) :
    JsonRpcRequest × Nat :=
  (⟨"2.0", method, params, (next_id c).1⟩, (next_id c).2)

/-- Serde serialization of a request; `params` is skipped when `none`
(`skip_serializing_if = "Option::is_none"`). -/
def JsonRpcRequest.toJson (r : JsonRpcRequest) : Json :=
  Json.obj
    ([("jsonrpc", Json.str r.jsonrpc), ("method", Json.str r.method)] ++
      (match r.params with
       | some p => [("params", p)]
       | none => []) ++
      [("id", Json.num (r.id : Int))])

/-- `JsonRpcRequest::to_line`: the serialized request, one document per
line (the trailing newline of the Rust string is the framing abstracted
away by the per-line model). -/
def JsonRpcRequest.to_line (r : JsonRpcRequest) : Json :=
  r.toJson

/-- The codec operation of spec section 4.1: allocate the next
identifier and produce the encoded line, threading the counter. -/
def encode_request (method : String) (params : Option Json) (c : Nat) :
    (Nat × Json) × Nat :=
  let rc := JsonRpcRequest.new method params c
  ((rc.1.id, rc.1.to_line), rc.2)

/-! ## Pending-call table (sidecar.rs)

`PendingRequests = Arc<Mutex<HashMap<u64, oneshot::Sender<...>>>>`.
Modelled as an association list from identifier to an abstract channel
token; `pendingInsert`/`pendingErase`/`pendingLookup` follow
`HashMap::insert`/`remove`/lookup semantics (insert replaces any
existing entry for the key). -/

/-- A oneshot sender is identified by an abstract token. -/
abbrev Pending := List (Nat × Nat)

/-- `HashMap::remove`: drop the entry for `id`, if any. -/
def pendingErase (p : Pending) (id : Nat) : Pending :=
  p.filter (fun e => e.1 != id)

/-- `HashMap::insert`: add `id ↦ tx`, replacing any previous entry. -/
def pendingInsert (p : Pending) (id : Nat) (tx : Nat) : Pending :=
  (id, tx) :: pendingErase p id

/-- `HashMap` lookup for `id`. -/
def pendingLookup (p : Pending) (id : Nat) : Option Nat :=
  match p with
  | [] => none
  | (k, v) :: tl => if k = id then some v else pendingLookup tl id

/-! ## The stdout reader loop body (sidecar.rs, SidecarProcess::start) -/

/-- `method.replace('.', ":")`: every dot character in the method name
becomes a colon (single-character pattern and replacement, hence a
character map). -/
def translateEventName (m : String) : String :=
  ⟨m.data.map (fun ch => if ch = '.' then ':' else ch)⟩

/-- The visible effect of processing one stdout line: the pending table
afterwards, an optional value sent to a pending caller's channel, and an
optional Tauri event emitted to the embedding application. -/
structure LineEffect where
  pending : Pending
  delivery : Option (Nat × Except String Json)
  event : Option (String × Json)

/-- The notification half of the reader body: if the line deserializes
as `JsonRpcNotification`, translate the method name and emit the params
as event payload — but only when `params` is present. -/
def notifyStep (line : Json) (p : Pending) : LineEffect :=
  match JsonRpcNotification.parse line with
  | some n =>
    match n.params with
    | some params => ⟨p, none, some (translateEventName n.method, params)⟩
    | none => ⟨p, none, none⟩
  | none => ⟨p, none, none⟩

/-- One iteration of the stdout reader loop (sidecar.rs lines 89-112)
on a non-blank line that parsed as JSON.  First try to deserialize as a
response: if it has an `id`, remove and complete the matching pending
entry (error string if the `error` field is populated, otherwise the
`result` value with `Null` as default) and stop; a response without an
`id`, or a line that does not deserialize as a response, falls through
to the notification attempt. -/
def processLine (line : Json) (p : Pending) : LineEffect :=
  match JsonRpcResponse.parse line with
  | some response =>
    match response.id with
    | some id =>
      match pendingLookup p id with
      | some tx =>
        let outcome : Except String Json :=
          match response.error with
          | some e => .error e.toMessage
          | none => .ok (response.result.getD .null)
        ⟨pendingErase p id, some (tx, outcome), none⟩
      | none => ⟨p, none, none⟩
    | none => notifyStep line p
  | none => notifyStep line p

/-- A synthetically constructed matching response line of the kind the
round-trip test feeds to the reader: protocol version, the request's
identifier, and a result payload. -/
def mkResponseLine (id : Nat) (result : Json) : Json :=
  Json.obj [("jsonrpc", Json.str "2.0"), ("id", Json.num (id : Int)), ("result", result)]

/-! ## The supervisor (sidecar.rs, SidecarProcess) -/

/-- The `SidecarProcess` fields observable by the claims: whether a
child handle is held, whether the stdin write half is held (`Option` in
Rust, presence modelled as a Bool), the pending table, and the shared
`connected` flag. -/
structure Sidecar where
  child : Bool
  stdin : Bool
  pending : Pending
  connected : Bool

/-- `SidecarProcess::new`. -/
def Sidecar.mk0 : Sidecar :=
  ⟨false, false, [], false⟩

/-- The environment's resolution of the 120-second bounded wait on the
oneshot receiver in `call`: either the reader task sent a value before
the deadline, or the sender was dropped without sending (channel
closed), or the deadline elapsed. -/
inductive AwaitOutcome where
  | received (r : Except String Json)
  | closed
  | timeout

/-- `SidecarProcess::call` (sidecar.rs lines 136-165), as a function of
the supervisor state, the global counter, and the environment's
behaviour: `writeErr`/`flushErr` are the I/O errors of `write_all` and
`flush` (`none` = success), `out` resolves the awaited receiver.
Returns the state (the call's own mutations of it), the new counter and
the call result.  Control flow from the source: the only guard is stdin
presence; the pending entry is inserted before the write; a failed
write or flush returns early with the entry still in the table; on
timeout the entry is removed here; on the received path the entry was
already removed by the reader (`processLine`), which is a separate
step, so `call` itself leaves the table as registered. -/
def call (s : Sidecar) (c : Nat) (method : String) (params : Option Json)
    (tx : Nat) (writeErr flushErr : Option String) (out : AwaitOutcome) :
    Sidecar × Nat × Except String Json :=
  if s.stdin = false then
    (s, c, .error "Sidecar not started")
  else
    let rc := JsonRpcRequest.new method params c
    let id := rc.1.id
    let p1 := pendingInsert s.pending id tx
    match writeErr with
    | some e =>
      ({ s with pending := p1 }, rc.2, .error ("Failed to write to sidecar: " ++ e))
    | none =>
      match flushErr with
      | some e =>
        ({ s with pending := p1 }, rc.2, .error ("Failed to flush sidecar stdin: " ++ e))
      | none =>
        match out with
        | .received r => ({ s with pending := p1 }, rc.2, r)
        | .closed => ({ s with pending := p1 }, rc.2, .error "Response channel closed")
        | .timeout =>
          ({ s with pending := pendingErase p1 id }, rc.2,
            .error "Sidecar call timed out after 120s")

/-- What the stdout reader does when `next_line` returns EOF (sidecar.rs
lines 115-116): flip the connected flag and emit the status event.  The
pending table is not touched. -/
def onStdoutEof (s : Sidecar) : Sidecar × (String × Json) :=
  ({ s with connected := false },
    ("sidecar:status", Json.obj [("connected", Json.bool false)]))

/-- `SidecarProcess::stop` (sidecar.rs lines 167-174): kill the child if
present, drop the stdin handle, clear the connected flag.  The pending
table is not touched. -/
def stop (s : Sidecar) : Sidecar :=
  { s with child := false, stdin := false, connected := false }

/-- `SidecarProcess::is_connected`. -/
def is_connected (s : Sidecar) : Bool :=
  s.connected

/-! ## The identifier sequence -/

/-- The counter value before the k-th call (counting from 0), starting
from the initial value 1 of `REQUEST_ID`. -/
def counterAt : Nat → Nat
  | 0 => 1
  | k + 1 => (next_id (counterAt k)).2

/-- The identifier issued to the k-th call. -/
def idAt (k : Nat) : Nat :=
  (next_id (counterAt k)).1

/-! ## Lock scope of rpc_call (commands.rs + sidecar.rs)

`rpc_call` in commands.rs acquires `state.sidecar.lock().await` and
holds the guard across the whole `sidecar.call(...).await`, releasing
it only when the function returns.  A single call decomposes into the
atomic phases below; the guard spans all of them. -/

/-- The phases of one `rpc_call` invocation, in source order:
acquire the supervisor mutex (commands.rs line 11), check the stdin
guard (sidecar.rs line 137), register the pending entry and write+flush
the line (lines 143-154), await the response or timeout (line 157),
and drop the guard (end of `rpc_call`). -/
inductive RpcAction where
  | lockAcquire
  | guardCheck
  | registerWrite
  | awaitResponse
  | lockRelease
deriving DecidableEq, BEq

/-- The phases of `rpc_call` in the order the source executes them. -/
def rpcCallTrace : List RpcAction :=
  [.lockAcquire, .guardCheck, .registerWrite, .awaitResponse, .lockRelease]

/-- Two concurrent `rpc_call` invocations interleaved: who holds the
supervisor mutex, and each caller's position (index into
`rpcCallTrace`; 5 = finished). -/
structure Sched where
  lock : Option (Fin 2)
  pc0 : Fin 6
  pc1 : Fin 6
deriving DecidableEq, Fintype

/-- Program counter of caller `i`. -/
def Sched.pcOf (s : Sched) (i : Fin 2) : Fin 6 :=
  if i.val = 0 then s.pc0 else s.pc1

/-- Whether caller `i` can execute its next phase: `lockAcquire` needs
the mutex free; every other phase happens while caller `i` holds the
mutex (the guard is alive for the whole function body). -/
def stepOk (s : Sched) (i : Fin 2) : Bool :=
  match rpcCallTrace.get? (s.pcOf i).val with
  | some .lockAcquire => s.lock == none
  | some _ => s.lock == some i
  | none => false

/-- Execute caller `i`'s next phase. -/
def doStep (s : Sched) (i : Fin 2) : Sched :=
  let k := s.pcOf i
  let s' : Sched :=
    if i.val = 0 then { s with pc0 := k + 1 } else { s with pc1 := k + 1 }
  match rpcCallTrace.get? k.val with
  | some .lockAcquire => { s' with lock := some i }
  | some .lockRelease => { s' with lock := none }
  | _ => s'

/-- States reachable by interleaving two `rpc_call` invocations from
the idle state. -/
inductive Reach : Sched → Prop where
  | init : Reach ⟨none, 0, 0⟩
  | step {s : Sched} (i : Fin 2) : Reach s → stepOk s i = true → Reach (doStep s i)

/-- Inductive invariant: a caller whose pc is strictly inside the
function body (past `lockAcquire`, not yet past `lockRelease`) holds
the mutex. -/
def schedInv (s : Sched) : Bool :=
  (!decide (1 ≤ s.pc0.val ∧ s.pc0.val ≤ 4) || s.lock == some 0) &&
  (!decide (1 ≤ s.pc1.val ∧ s.pc1.val ≤ 4) || s.lock == some 1)

/-- A caller is "in flight" when its request is registered and written
but its await has not yet completed: exactly pc = 3. -/
def inFlight (s : Sched) (i : Fin 2) : Bool :=
  s.pcOf i == (3 : Fin 6)

/-! ## Helper lemmas -/

theorem counterAt_eq (k : Nat) : counterAt k = (1 + k) % 2 ^ 64 := by
  have h64 : (2 : Nat) ^ 64 = 18446744073709551616 := by norm_num
  induction k with
  | zero => simp [counterAt]
  | succ n ih =>
    simp only [counterAt, next_id, ih, h64]
    omega

theorem idAt_eq (k : Nat) : idAt k = (1 + k) % 2 ^ 64 := by
  have h64 : (2 : Nat) ^ 64 = 18446744073709551616 := by norm_num
  simp only [idAt, next_id, counterAt_eq, h64]
  omega

theorem pendingLookup_insert (p : Pending) (id tx : Nat) :
    pendingLookup (pendingInsert p id tx) id = some tx := by
  simp [pendingInsert, pendingLookup]

theorem pendingLookup_erase_self (p : Pending) (id : Nat) :
    pendingLookup (pendingErase p id) id = none := by
  induction p with
  | nil => rfl
  | cons e tl ih =>
    by_cases h : e.1 = id
    · simpa [pendingErase, h] using ih
    · simpa [pendingErase, pendingLookup, h] using ih

theorem optU64_num_of_lt {id : Nat} (h : id < 2 ^ 64) :
    optU64 (some (Json.num (id : Int))) = some (some id) := by
  have hcond : (0 : Int) ≤ (id : Int) ∧ ((id : Int)) < (2 : Int) ^ 64 := by
    refine ⟨Int.natCast_nonneg id, ?_⟩
    have h' : ((id : Int)) < ((2 ^ 64 : Nat) : Int) := by exact_mod_cast h
    simpa using h'
  simp only [optU64]
  split
  · simp
  · next hneg => exact absurd hcond hneg

theorem parse_mkResponseLine {id : Nat} (h : id < 2 ^ 64) (r : Json) :
    JsonRpcResponse.parse (mkResponseLine id r) =
      some ⟨"2.0", some id, (optValue (some r)).getD none, none⟩ := by
  have h1 : (Json.obj [("jsonrpc", Json.str "2.0"), ("id", Json.num (id : Int)),
      ("result", r)]).get? "jsonrpc" = some (Json.str "2.0") := rfl
  have h2 : (Json.obj [("jsonrpc", Json.str "2.0"), ("id", Json.num (id : Int)),
      ("result", r)]).get? "id" = some (Json.num (id : Int)) := rfl
  have h3 : (Json.obj [("jsonrpc", Json.str "2.0"), ("id", Json.num (id : Int)),
      ("result", r)]).get? "result" = some r := rfl
  have h4 : (Json.obj [("jsonrpc", Json.str "2.0"), ("id", Json.num (id : Int)),
      ("result", r)]).get? "error" = none := rfl
  rw [mkResponseLine, JsonRpcResponse.parse, h1, h2, h3, h4, optU64_num_of_lt h]
  cases r <;> rfl

theorem processLine_response_found {id : Nat} (h : id < 2 ^ 64) (r : Json)
    {p : Pending} {tx : Nat} (hl : pendingLookup p id = some tx) :
    processLine (mkResponseLine id r) p =
      ⟨pendingErase p id, some (tx, Except.ok r), none⟩ := by
  rw [processLine, parse_mkResponseLine h r]
  cases r <;> simp [hl, optValue]

theorem processLine_response_absent {id : Nat} (h : id < 2 ^ 64) (r : Json)
    {p : Pending} (hl : pendingLookup p id = none) :
    processLine (mkResponseLine id r) p = ⟨p, none, none⟩ := by
  rw [processLine, parse_mkResponseLine h r]
  simp [hl]

theorem notifyStep_pending (j : Json) (p : Pending) :
    (notifyStep j p).pending = p ∧ (notifyStep j p).delivery = none := by
  unfold notifyStep
  split
  · split <;> exact ⟨rfl, rfl⟩
  · exact ⟨rfl, rfl⟩

theorem notifyStep_event {j : Json} {p : Pending} {ev : String × Json}
    (h : (notifyStep j p).event = some ev) :
    ∃ n, JsonRpcNotification.parse j = some n ∧ n.params = some ev.2 ∧
      ev.1 = translateEventName n.method := by
  unfold notifyStep at h
  split at h
  · next n hn =>
    split at h
    · next ps hps =>
      have hev := Option.some.inj h
      exact ⟨n, hn, by rw [hps, ← hev], by rw [← hev]⟩
    · exact Option.noConfusion h
  · exact Option.noConfusion h

theorem parse_id_none {j : Json} (h : j.get? "id" = none) {r : JsonRpcResponse}
    (hp : JsonRpcResponse.parse j = some r) : r.id = none := by
  unfold JsonRpcResponse.parse at hp
  split at hp
  · rw [h] at hp
    simp only [optU64, Option.some_bind, Option.bind_eq_some,
      Option.map_eq_some'] at hp
    obtain ⟨v, -, rr, -, e, -, rfl⟩ := hp
    rfl
  · simp at hp

theorem schedInv_step :
    ∀ (s : Sched) (i : Fin 2), schedInv s = true → stepOk s i = true →
      schedInv (doStep s i) = true := by decide

theorem schedInv_reach {s : Sched} (h : Reach s) : schedInv s = true := by
  induction h with
  | init => decide
  | step i _ hok ih => exact schedInv_step _ i ih hok

theorem schedInv_excl :
    ∀ s : Sched, schedInv s = true → ¬(inFlight s 0 = true ∧ inFlight s 1 = true) := by
  decide

/-! ## Claims -/

/-- Claim C1: for every method name, optional params and counter value,
encoding a request (`JsonRpcRequest::new` + `to_line`) and then feeding
the stdout reader a synthetically constructed response line carrying
the same identifier resolves the pending call registered under that
identifier to the expected result: the entry is removed and the caller
receives `Ok` of the response's result value. -/
theorem c1_roundtrip (c : Nat) (method : String) (params : Option Json)
    (r : Json) (p : Pending) (tx : Nat) :
    processLine (mkResponseLine (encode_request method params c).1.1 r)
        (pendingInsert p (encode_request method params c).1.1 tx) =
      ⟨pendingErase (pendingInsert p (encode_request method params c).1.1 tx)
          (encode_request method params c).1.1,
        some (tx, Except.ok r), none⟩ := by
  have hid : (encode_request method params c).1.1 = c % 2 ^ 64 := rfl
  rw [hid]
  exact processLine_response_found (Nat.mod_lt _ (by norm_num)) r
    (pendingLookup_insert p (c % 2 ^ 64) tx)

/-- Claim C2: a call that hits the 120-second bound removes its own
pending entry and returns the timeout error; afterwards a late or
duplicate response carrying that identifier finds no entry and is a
no-op: nothing is delivered and the table is returned unchanged (the
model functions are total, so no panic is possible). -/
theorem c2_timeout_expires (s : Sidecar) (c : Nat) (method : String)
    (params : Option Json) (tx : Nat) (r : Json) (h : s.stdin = true) :
    (call s c method params tx none none .timeout).2.2 =
        Except.error "Sidecar call timed out after 120s" ∧
    pendingLookup (call s c method params tx none none .timeout).1.pending
        (c % 2 ^ 64) = none ∧
    processLine (mkResponseLine (c % 2 ^ 64) r)
        (call s c method params tx none none .timeout).1.pending =
      ⟨(call s c method params tx none none .timeout).1.pending, none, none⟩ := by
  have hm : c % 2 ^ 64 < 2 ^ 64 := Nat.mod_lt _ (by norm_num)
  have hcall : call s c method params tx none none .timeout =
      ({ s with pending :=
          pendingErase (pendingInsert s.pending (c % 2 ^ 64) tx) (c % 2 ^ 64) },
        (c + 1) % 2 ^ 64, .error "Sidecar call timed out after 120s") := by
    simp [call, h, JsonRpcRequest.new, next_id]
  rw [hcall]
  refine ⟨rfl, pendingLookup_erase_self _ _, ?_⟩
  exact processLine_response_absent hm r (pendingLookup_erase_self _ _)

/-- Witness for C2 at a started supervisor with an empty table. -/
theorem c2_timeout_expires_witness :
    (call (Sidecar.mk true true [] true) 1 "m" none 7 none none .timeout).2.2 =
        Except.error "Sidecar call timed out after 120s" ∧
    pendingLookup (call (Sidecar.mk true true [] true) 1 "m" none 7 none none
        .timeout).1.pending (1 % 2 ^ 64) = none ∧
    processLine (mkResponseLine (1 % 2 ^ 64) Json.null)
        (call (Sidecar.mk true true [] true) 1 "m" none 7 none none .timeout).1.pending =
      ⟨(call (Sidecar.mk true true [] true) 1 "m" none 7 none none .timeout).1.pending,
        none, none⟩ :=
  c2_timeout_expires (Sidecar.mk true true [] true) 1 "m" none 7 Json.null rfl

/-- Claim C3 fails as stated: the identifier counter is a u64 that
wraps: the call at position 2 ^ 64 - 1 is issued identifier 0, smaller
than the identifier 1 of the call at position 0, so the issued sequence
is not strictly increasing over every sequence of calls. -/
theorem c3_counterexample :
    idAt 0 = 1 ∧ idAt (2 ^ 64 - 1) = 0 ∧ 0 < 2 ^ 64 - 1 ∧
      ¬ idAt 0 < idAt (2 ^ 64 - 1) := by
  have h0 : idAt 0 = 1 := by rw [idAt_eq]; norm_num
  have h1 : idAt (2 ^ 64 - 1) = 0 := by rw [idAt_eq]; norm_num
  exact ⟨h0, h1, by norm_num, by rw [h0, h1]; omega⟩

/-- Claim C3 (amended): identifiers are generated by a counter starting
at 1 whose increment returns the previous value, and as long as the
wrap point is not reached (position j with j + 2 ≤ 2 ^ 64) the issued
identifiers are pairwise distinct and strictly increasing in issuance
order (concurrent callers linearize through the atomic counter). -/
theorem c3_monotonic (i j : Nat) (hij : i < j) (hj : j + 2 ≤ 2 ^ 64) :
    idAt 0 = 1 ∧ idAt i < idAt j ∧ idAt i ≠ idAt j := by
  have h64 : (2 : Nat) ^ 64 = 18446744073709551616 := by norm_num
  rw [h64] at hj
  have hi' : idAt i = 1 + i := by rw [idAt_eq, h64]; omega
  have hj' : idAt j = 1 + j := by rw [idAt_eq, h64]; omega
  have h0 : idAt 0 = 1 := by rw [idAt_eq]; norm_num
  exact ⟨h0, by omega, by omega⟩

/-- Witness for C3 (amended) at the first two issued identifiers. -/
theorem c3_monotonic_witness :
    idAt 0 = 1 ∧ idAt 0 < idAt 1 ∧ idAt 0 ≠ idAt 1 :=
  c3_monotonic 0 1 (by norm_num) (by norm_num)

/-- Claim C4 fails as stated: in the state after the worker has exited
(stdout reader observed EOF, connected flag false, stdin handle still
captured), call does not fail with the NotConnectedError "Sidecar not
started" — it proceeds, registers the pending entry and here completes
successfully. -/
theorem c4_counterexample :
    (Sidecar.mk true true [] false).connected = false ∧
    call (Sidecar.mk true true [] false) 1 "translate.start" none 7 none none
        (.received (Except.ok Json.null)) =
      (Sidecar.mk true true [(1, 7)] false, 2, Except.ok Json.null) ∧
    (call (Sidecar.mk true true [] false) 1 "translate.start" none 7 none none
        (.received (Except.ok Json.null))).2.2 ≠
      Except.error "Sidecar not started" := by
  refine ⟨rfl, rfl, ?_⟩
  intro hc
  exact Except.noConfusion hc

/-- Claim C4 (amended): the only guard in call is the presence of the
stdin write handle: when it is absent (never started, or stopped), call
fails immediately with the NotConnectedError string and changes
nothing; the connected flag is not consulted, so whenever stdin is
present — even with connected = false after a worker exit — call
proceeds to register the pending entry and attempt the write. -/
theorem c4_guard (s : Sidecar) (c : Nat) (method : String) (params : Option Json)
    (tx : Nat) (we fe : Option String) (out : AwaitOutcome) :
    (s.stdin = false →
      call s c method params tx we fe out = (s, c, Except.error "Sidecar not started")) ∧
    (s.stdin = true → ∀ e : String,
      call s c method params tx (some e) fe out =
        ({ s with pending := pendingInsert s.pending (c % 2 ^ 64) tx },
          (c + 1) % 2 ^ 64,
          Except.error ("Failed to write to sidecar: " ++ e))) := by
  constructor
  · intro h
    simp [call, h]
  · intro h e
    simp [call, h, JsonRpcRequest.new, next_id]

/-- Witness for C4 (amended): a never-started supervisor rejects the
call immediately, and a started one attempts the write. -/
theorem c4_guard_witness :
    call (Sidecar.mk false false [] false) 1 "m" none 7 none none .timeout =
      (Sidecar.mk false false [] false, 1, Except.error "Sidecar not started") ∧
    call (Sidecar.mk true true [] false) 1 "m" none 7 (some "broken pipe") none .timeout =
      ({ Sidecar.mk true true [] false with
          pending := pendingInsert [] (1 % 2 ^ 64) 7 },
        (1 + 1) % 2 ^ 64,
        Except.error ("Failed to write to sidecar: " ++ "broken pipe")) :=
  ⟨(c4_guard (Sidecar.mk false false [] false) 1 "m" none 7 none none .timeout).1 rfl,
    (c4_guard (Sidecar.mk true true [] false) 1 "m" none 7 (some "broken pipe") none
      .timeout).2 rfl "broken pipe"⟩

/-- Claim C5 fails as stated: tearing the transport down while a call
is pending releases no completion channel — both the stdout EOF path
and stop leave the pending entry (identifier 5, channel 77) in the
table, so the in-flight caller cannot observe a channel-closed
condition from teardown and will instead wait out its full timeout. -/
theorem c5_counterexample :
    (onStdoutEof (Sidecar.mk true true [(5, 77)] true)).1.pending = [(5, 77)] ∧
    (stop (Sidecar.mk true true [(5, 77)] true)).pending = [(5, 77)] ∧
    pendingLookup (stop (Sidecar.mk true true [(5, 77)] true)).pending 5 = some 77 :=
  ⟨rfl, rfl, rfl⟩

/-- Claim C5 (amended): when the transport is torn down (stdout EOF or
stop) the pending table is left untouched — no completion channel is
released — so remaining in-flight callers are not completed by teardown
and each waits until its own 120-second timeout; teardown only clears
the connected flag (and stop also drops the child and stdin handles). -/
theorem c5_teardown_keeps_pending (s : Sidecar) :
    (onStdoutEof s).1.pending = s.pending ∧ (stop s).pending = s.pending ∧
    (onStdoutEof s).1.connected = false ∧ (stop s).connected = false ∧
    (stop s).stdin = false :=
  ⟨rfl, rfl, rfl, rfl, rfl⟩

/-- Claim C6 fails as stated: absence of an `id` field is not the sole
discriminator for Notification classification — this line carries an
`id` field, yet because it lacks the `jsonrpc` field required by the
Response deserializer it is forwarded as a Notification (and resolves
nothing). -/
theorem c6_counterexample :
    (Json.obj [("method", Json.str "progress.update"), ("id", Json.num 5),
        ("params", Json.num 1)]).get? "id" = some (Json.num 5) ∧
    (processLine (Json.obj [("method", Json.str "progress.update"),
        ("id", Json.num 5), ("params", Json.num 1)]) [(5, 77)]).event =
      some ("progress:update", Json.num 1) ∧
    (processLine (Json.obj [("method", Json.str "progress.update"),
        ("id", Json.num 5), ("params", Json.num 1)]) [(5, 77)]).delivery = none :=
  ⟨rfl, rfl, rfl⟩

/-- Claim C6 (amended): a line lacking an `id` field never resolves any
pending entry — the table is unchanged and nothing is delivered — but
absence of `id` is not the sole discriminator: forwarding as a
Notification additionally requires a `method` field, and a line with an
`id` but without the `jsonrpc` field required of a Response is still
forwarded as a Notification. -/
theorem c6_no_id_never_resolves (j : Json) (p : Pending)
    (h : j.get? "id" = none) :
    (processLine j p).pending = p ∧ (processLine j p).delivery = none := by
  cases hp : JsonRpcResponse.parse j with
  | none =>
    rw [processLine, hp]
    exact notifyStep_pending j p
  | some resp =>
    have hid := parse_id_none h hp
    rw [processLine, hp]
    simp only [hid]
    exact notifyStep_pending j p

/-- Witness for C6 (amended): an id-less response line leaves a
non-empty table unchanged and delivers nothing. -/
theorem c6_no_id_never_resolves_witness :
    (processLine (Json.obj [("jsonrpc", Json.str "2.0"), ("result", Json.num 3)])
        [(1, 9)]).pending = [(1, 9)] ∧
    (processLine (Json.obj [("jsonrpc", Json.str "2.0"), ("result", Json.num 3)])
        [(1, 9)]).delivery = none :=
  c6_no_id_never_resolves (Json.obj [("jsonrpc", Json.str "2.0"), ("result", Json.num 3)])
    [(1, 9)] rfl

/-- Claim C7: a parsed response whose identifier matches a pending
entry delivers Err of the error's display string when the error field
is populated, and Ok of the result otherwise; with both result and
error absent the caller receives Ok null (`unwrap_or(Value::Null)`). -/
theorem c7_dispatch (j : Json) (p : Pending) (resp : JsonRpcResponse)
    (id tx : Nat) (hp : JsonRpcResponse.parse j = some resp)
    (hid : resp.id = some id) (hl : pendingLookup p id = some tx) :
    processLine j p =
      ⟨pendingErase p id,
        some (tx,
          match resp.error with
          | some e => Except.error e.toMessage
          | none => Except.ok (resp.result.getD Json.null)),
        none⟩ := by
  rw [processLine, hp]
  simp only [hid, hl]

/-- Witness for C7: a response with matching identifier and with both
result and error absent delivers Ok null. -/
theorem c7_dispatch_witness :
    processLine (Json.obj [("jsonrpc", Json.str "2.0"), ("id", Json.num 1)]) [(1, 9)] =
      ⟨[], some (9, Except.ok Json.null), none⟩ :=
  c7_dispatch (Json.obj [("jsonrpc", Json.str "2.0"), ("id", Json.num 1)]) [(1, 9)]
    ⟨"2.0", some 1, none, none⟩ 1 9 rfl rfl rfl

/-- Claim C8 fails as stated: an execution of call whose write of the
request line fails returns the write error with the just-registered
entry still in the table — the entry was inserted before the write and
nothing on this path removes it. -/
theorem c8_counterexample :
    (call (Sidecar.mk true true [] true) 1 "m" none 7 (some "broken pipe") none
        (.received (Except.ok Json.null))).2.2 =
      Except.error "Failed to write to sidecar: broken pipe" ∧
    pendingLookup (call (Sidecar.mk true true [] true) 1 "m" none 7
        (some "broken pipe") none (.received (Except.ok Json.null))).1.pending 1 =
      some 7 :=
  ⟨rfl, rfl⟩

/-- Claim C8 (amended): the pending entry is inserted before the write;
when write and flush succeed it is removed exactly once — by the
timeout path of call, or by the reader delivering the response, after
which a duplicate response (or a timeout racing a completed response)
finds no entry and removes nothing — but when the write or flush fails,
call returns the I/O error and leaves the freshly inserted entry in the
table. -/
theorem c8_insert_remove (s : Sidecar) (c : Nat) (method : String)
    (params : Option Json) (tx : Nat) (r : Json) (h : s.stdin = true) :
    (∀ e fe out, (call s c method params tx (some e) fe out).1.pending =
        pendingInsert s.pending (c % 2 ^ 64) tx) ∧
    ((call s c method params tx none none .timeout).1.pending =
        pendingErase (pendingInsert s.pending (c % 2 ^ 64) tx) (c % 2 ^ 64)) ∧
    (∀ p', pendingLookup p' (c % 2 ^ 64) = none →
        processLine (mkResponseLine (c % 2 ^ 64) r) p' = ⟨p', none, none⟩) ∧
    (∀ p' tx', pendingLookup p' (c % 2 ^ 64) = some tx' →
        processLine (mkResponseLine (c % 2 ^ 64) r) p' =
          ⟨pendingErase p' (c % 2 ^ 64), some (tx', Except.ok r), none⟩) := by
  have hm : c % 2 ^ 64 < 2 ^ 64 := Nat.mod_lt _ (by norm_num)
  refine ⟨?_, ?_, ?_, ?_⟩
  · intro e fe out
    simp [call, h, JsonRpcRequest.new, next_id]
  · simp [call, h, JsonRpcRequest.new, next_id]
  · intro p' hl
    exact processLine_response_absent hm r hl
  · intro p' tx' hl
    exact processLine_response_found hm r hl

/-- Witness for C8 (amended): the timeout path of a concrete call
removes exactly the entry it registered. -/
theorem c8_insert_remove_witness :
    (call (Sidecar.mk true true [] true) 1 "m" none 7 none none .timeout).1.pending =
      pendingErase (pendingInsert [] (1 % 2 ^ 64) 7) (1 % 2 ^ 64) :=
  (c8_insert_remove (Sidecar.mk true true [] true) 1 "m" none 7 Json.null rfl).2.1

/-- Claim C9 fails as stated: in rpc_call the supervisor mutex guard is
dropped only when the function returns, after the await of the response
— the release is not before the await. -/
theorem c9_counterexample :
    rpcCallTrace.indexOf RpcAction.awaitResponse <
      rpcCallTrace.indexOf RpcAction.lockRelease ∧
    ¬ rpcCallTrace.indexOf RpcAction.lockRelease <
        rpcCallTrace.indexOf RpcAction.awaitResponse := by
  decide

/-- Claim C9 (amended): because the supervisor mutex is held for the
entire call — including the response await — concurrent rpc_call
invocations are serialized end-to-end: in every reachable interleaving
of two callers, at most one of them is in flight (registered and
awaiting) at any time. -/
theorem c9_serialized (s : Sched) (h : Reach s) :
    ¬ (inFlight s 0 = true ∧ inFlight s 1 = true) :=
  schedInv_excl s (schedInv_reach h)

/-- Witness for C9 (amended): a concrete reachable state in which
caller 0 has registered its request and is awaiting the response. -/
theorem c9_serialized_witness :
    ¬ (inFlight ⟨some 0, 3, 0⟩ 0 = true ∧ inFlight ⟨some 0, 3, 0⟩ 1 = true) :=
  c9_serialized ⟨some 0, 3, 0⟩
    (Reach.step 0 (Reach.step 0 (Reach.step 0 Reach.init rfl) rfl) rfl)

/-- Claim C10: the stdout reader emits a translated event only when the
line is a notification carrying a params value: any emitted event's
name is the dot-to-colon translation of the notification's method and
its payload is the params — so a notification whose params field is
absent is never republished (silently dropped). -/
theorem c10_params_required (j : Json) (p : Pending) (ev : String × Json)
    (h : (processLine j p).event = some ev) :
    ∃ n, JsonRpcNotification.parse j = some n ∧ n.params = some ev.2 ∧
      ev.1 = translateEventName n.method := by
  rw [processLine] at h
  cases hp : JsonRpcResponse.parse j with
  | none =>
    rw [hp] at h
    exact notifyStep_event h
  | some resp =>
    rw [hp] at h
    cases hid : resp.id with
    | none =>
      simp only [hid] at h
      exact notifyStep_event h
    | some id =>
      simp only [hid] at h
      cases hl : pendingLookup p id with
      | none =>
        simp only [hl] at h
        exact Option.noConfusion h
      | some tx =>
        simp only [hl] at h
        exact Option.noConfusion h

/-- Witness for C10: a params-carrying notification is republished
under the translated event name with the params as payload. -/
theorem c10_params_required_witness :
    ∃ n, JsonRpcNotification.parse
        (Json.obj [("method", Json.str "pipeline.progress"), ("params", Json.num 2)]) =
      some n ∧ n.params = some (Json.num 2) ∧
      "pipeline:progress" = translateEventName n.method :=
  c10_params_required
    (Json.obj [("method", Json.str "pipeline.progress"), ("params", Json.num 2)]) []
    ("pipeline:progress", Json.num 2) rfl

end FT
